import Mathlib

/-!
Shallow embedding of `src/dbms/src/DataStreams/FillingBlockInputStream.cpp`
(the WITH FILL row-generation engine): the `FillingRow` cursor with its
carry/advance algorithm `next`, the row-insertion helpers, and the
`FillingBlockInputStream` constructor checks and `readImpl` driver loop.

Machine `Field` values are modelled as a closed sum over the representations
the code exercises here (Null, Int64, UInt64, String); the external field
visitors (`FieldVisitorAccurateLess`, `FieldVisitorAccurateEquals`,
`FieldVisitorSum`) live in `Common/FieldVisitors.h`, outside this excerpt,
and are modelled from the spec's Value contract (exact mathematical
comparison and addition of a step).
-/

namespace Filling

/-- The runtime-tagged value type (`DB::Field`), restricted to the
representations exercised by this stream: Null, Int64, UInt64, String. -/
inductive Field where
  | null : Field
  | int64 : Int → Field
  | uint64 : Nat → Field
  | str : String → Field
  deriving DecidableEq, Repr

/-- The representation tag of a `Field` (`Field::getType()`). -/
inductive FieldType where
  | tNull : FieldType
  | tInt64 : FieldType
  | tUInt64 : FieldType
  | tString : FieldType
  deriving DecidableEq, Repr

def Field.getType : Field → FieldType
  | .null => .tNull
  | .int64 _ => .tInt64
  | .uint64 _ => .tUInt64
  | .str _ => .tString

def Field.isNull : Field → Bool
  | .null => true
  | _ => false

/-- The mathematical value carried by a numeric field, if any. -/
def Field.val? : Field → Option Int
  | .null => none
  | .int64 i => some i
  | .uint64 n => some (n : Int)
  | .str _ => none

/-- `Field::get<Int64>()` on a `UInt64`-stored field reinterprets the stored
64-bit word as a signed integer (two's-complement wraparound for values
at or above `2^63`); on an `Int64`-stored field it returns the value. -/
def Field.getInt64 : Field → Int
  | .int64 i => i
  | .uint64 n => if n < 2 ^ 63 then (n : Int) else (n : Int) - 2 ^ 64
  | _ => 0

/-- Modelled from the spec: `FieldVisitorAccurateLess` (external, in
`Common/FieldVisitors.h`) — exact mathematical ordered comparison of two
numeric fields, never true when either side is not numeric. In this file it
is only ever applied to non-null numeric fields, as in the source. -/
def accurateLess (lhs rhs : Field) : Bool :=
  match lhs.val?, rhs.val? with
  | some x, some y => decide (x < y)
  | _, _ => false

/-- Modelled from the spec: `FieldVisitorAccurateEquals` (external) — exact
mathematical equality of two numeric fields. -/
def accurateEquals (lhs rhs : Field) : Bool :=
  match lhs.val?, rhs.val? with
  | some x, some y => decide (x = y)
  | _, _ => false

/-- Modelled from the spec: `FieldVisitorSum` (external) — in-place addition
of a step to a value, keeping the value's representation (unsigned results
reduce modulo `2^64`, mirroring the machine word). -/
def fieldSum (step x : Field) : Field :=
  match x, step.val? with
  | .int64 i, some s => .int64 (i + s)
  | .uint64 n, some s => .uint64 (((n : Int) + s) % (2 ^ 64 : Int)).toNat
  | _, _ => x

/-- `static bool less(const Field &, const Field &, int direction)`
(FillingBlockInputStream.cpp lines 13–19): compares fields in terms of
sorting order, considering direction. -/
def less (lhs rhs : Field) (direction : Int) : Bool :=
  if direction = -1 then accurateLess rhs lhs
  else accurateLess lhs rhs

/-- `static bool equals(const Field &, const Field &)` (line 21). -/
def equalsF (lhs rhs : Field) : Bool := accurateEquals lhs rhs

/-- Per-column fill configuration (`FillColumnDescription`): `fill_from`,
`fill_to`, `fill_step`. -/
structure FillDescription where
  fill_from : Field
  fill_to : Field
  fill_step : Field
  deriving DecidableEq, Repr

/-- One sort-key column description (`SortColumnDescription`): name,
direction (+1 ascending / -1 descending) and the fill configuration. -/
structure SortColumnDescription where
  column_name : String
  direction : Int
  fill_description : FillDescription
  deriving DecidableEq, Repr

def defaultSortColumn : SortColumnDescription :=
  ⟨"", 0, ⟨Field.null, Field.null, Field.null⟩⟩

/-- The generator's mutable cursor (`FillingRow`): the per-column sort
description plus one `Field` per key column. -/
structure FillingRow where
  description : List SortColumnDescription
  row : List Field
  deriving DecidableEq, Repr

def FillingRow.size (r : FillingRow) : Nat := r.row.length

/-- `FillingRow::operator[]` — cursor value at a column position. -/
def FillingRow.get (r : FillingRow) (i : Nat) : Field := r.row.getD i Field.null

/-- Accessor `getDirection(i)` (declared in the header, modelled from the
spec: per-column direction). -/
def FillingRow.getDirection (r : FillingRow) (i : Nat) : Int :=
  (r.description.getD i defaultSortColumn).direction

/-- Accessor `getFillDescription(i)` (declared in the header, modelled from
the spec: per-column FillSpec). -/
def FillingRow.getFillDescription (r : FillingRow) (i : Nat) : FillDescription :=
  (r.description.getD i defaultSortColumn).fill_description

/-- The bound-representation normalization done by the `FillingRow`
constructor (lines 30–36): cast `fill_from`/`fill_to` to the same type when
one is `Int64` and the other `UInt64`, so that comparisons near zero behave. -/
def normalizeFill (fd : FillDescription) : FillDescription :=
  let fd1 :=
    if fd.fill_to.getType = FieldType.tInt64 ∧ fd.fill_from.getType = FieldType.tUInt64 then
      { fd with fill_from := Field.int64 fd.fill_from.getInt64 }
    else fd
  if fd1.fill_from.getType = FieldType.tInt64 ∧ fd1.fill_to.getType = FieldType.tUInt64 then
    { fd1 with fill_to := Field.int64 fd1.fill_to.getInt64 }
  else fd1

/-- `FillingRow::FillingRow(const SortDescription &)` (lines 23–39):
normalize each column's bounds, then size the row (default `Field` is Null). -/
def FillingRow.construct (description : List SortColumnDescription) : FillingRow :=
  let d := description.map fun e => { e with fill_description := normalizeFill e.fill_description }
  { description := d, row := List.replicate d.length Field.null }

/-- The scan of lines 46–48: index of the first position where cursor and
target are both non-null and not equal; the row's length when none exists. -/
def findPosList : List Field → List Field → Nat
  | x :: xs, y :: ys =>
      if x.isNull = false ∧ y.isNull = false ∧ equalsF x y = false then 0
      else findPosList xs ys + 1
  | _, _ => 0

/-- `FillingRow::initFromDefaults(size_t from_pos)` (lines 109–113): set
cursor positions ≥ `from_pos` to each column's `fill_from`. -/
def FillingRow.initFromDefaults (st : FillingRow) (from_pos : Nat) : FillingRow :=
  { st with
    row := st.row.mapIdx fun i v =>
      if from_pos ≤ i then (st.getFillDescription i).fill_from else v }

/-- `FillingRow::initFromColumns(columns, row_num, from_pos)` (lines
103–107): copy real values from a batch row into cursor positions ≥
`from_pos` (the loop runs while `i < columns.size()`). -/
def FillingRow.initFromColumns (st : FillingRow) (columns : List (List Field))
    (row_num : Nat) (from_pos : Nat) : FillingRow :=
  { st with
    row := st.row.mapIdx fun i v =>
      if from_pos ≤ i ∧ i < columns.length then (columns.getD i []).getD row_num Field.null
      else v }

/-- The trailing-column scan of lines 55–68: walk `i` from `row.size()-1`
down while `i > pos`; report the first column whose non-null value, stepped
once, still lies strictly before its non-null `fill_to` under direction. -/
def trailingScan (st : FillingRow) (pos : Nat) : Nat → Option (Nat × Field)
  | 0 => none
  | i + 1 =>
      if i + 1 ≤ pos then none
      else
        let fd := st.getFillDescription (i + 1)
        if fd.fill_to.isNull ∨ (st.get (i + 1)).isNull then trailingScan st pos i
        else
          let next_value := fieldSum fd.fill_step (st.get (i + 1))
          if less next_value fd.fill_to (st.getDirection (i + 1)) then some (i + 1, next_value)
          else trailingScan st pos i

/-- The catch-up loop of lines 75–87: walk `i` upward from `pos+1`; at the
first column whose non-null `fill_from` lies strictly before the non-null
target value, reset from there and stop with `is_less = true`; otherwise
copy the target's value into the column and continue. The first argument is
the number of remaining loop iterations (`row.size() - i`, constant across
the loop since `set` preserves the length). -/
def catchUp (to_row : List Field) : Nat → FillingRow → Nat → FillingRow × Bool
  | 0, st, _ => (st, false)
  | k + 1, st, i =>
      let fd := st.getFillDescription i
      let t := to_row.getD i Field.null
      if fd.fill_from.isNull = false ∧ t.isNull = false ∧
          less fd.fill_from t (st.getDirection i) = true then
        (st.initFromDefaults i, true)
      else
        catchUp to_row k { st with row := st.row.set i t } (i + 1)

/-- `bool FillingRow::next(const FillingRow & to_row)` (lines 41–101),
returning the mutated cursor together with the produced-a-row flag. -/
def FillingRow.next (st : FillingRow) (to_row : List Field) : FillingRow × Bool :=
  let pos := findPosList st.row to_row
  if pos = st.size then (st, false)
  else if less (to_row.getD pos Field.null) (st.get pos) (st.getDirection pos) then
    (st, false)
  else
    match trailingScan st pos (st.size - 1) with
    | some (i, next_value) =>
        let st1 := st.initFromDefaults (i + 1)
        ({ st1 with row := st1.row.set i next_value }, true)
    | none =>
        let next_value := fieldSum (st.getFillDescription pos).fill_step (st.get pos)
        if equalsF next_value (to_row.getD pos Field.null) then
          let r := catchUp to_row (st.size - (pos + 1)) st (pos + 1)
          ({ r.1 with row := r.1.row.set pos next_value }, r.2)
        else if less next_value (to_row.getD pos Field.null) (st.getDirection pos) then
          let st1 := st.initFromDefaults (pos + 1)
          ({ st1 with row := st1.row.set pos next_value }, true)
        else (st, false)

/-- Column data types, restricted to what the claims exercise.
`isColumnedAsNumber` and `isValueRepresentedByUnsignedInteger` are the
external `IDataType` predicates, modelled from the spec's representation
query (signed / unsigned / numeric). -/
inductive ColumnType where
  | tInt64 : ColumnType
  | tUInt64 : ColumnType
  | tString : ColumnType
  deriving DecidableEq, Repr

def isColumnedAsNumber : ColumnType → Bool
  | .tInt64 => true
  | .tUInt64 => true
  | .tString => false

def isValueRepresentedByUnsignedInteger : ColumnType → Bool
  | .tUInt64 => true
  | _ => false

/-- The default value a column inserts for `insertDefault` (modelled from
the column abstraction: a numeric column's default is zero, a string
column's is the empty string — never Null). -/
def defaultValueOf : ColumnType → Field
  | .tInt64 => .int64 0
  | .tUInt64 => .uint64 0
  | .tString => .str ""

/-- A (mutable) column: its type plus the cells inserted so far. -/
structure ColumnModel where
  ctype : ColumnType
  cells : List Field
  deriving DecidableEq, Repr

def defaultColumn : ColumnModel := ⟨ColumnType.tString, []⟩

def ColumnModel.insert (c : ColumnModel) (f : Field) : ColumnModel :=
  { c with cells := c.cells ++ [f] }

def ColumnModel.insertDefault (c : ColumnModel) : ColumnModel :=
  c.insert (defaultValueOf c.ctype)

/-- The fill-column loop of `insertFromFillingRow` (lines 118–124), walking
the fill columns in order with the matching cursor position. -/
def insertFillCells (st : FillingRow) (i : Nat) : List ColumnModel → List ColumnModel
  | [] => []
  | c :: cs =>
      (if (st.get i).isNull then c.insertDefault else c.insert (st.get i)) ::
        insertFillCells st (i + 1) cs

/-- `static void insertFromFillingRow(...)` (lines 116–129): fill columns
receive the cursor value (or the type default when the cursor is null),
other columns receive their default. -/
def insertFromFillingRow (filling_columns other_columns : List ColumnModel)
    (filling_row : FillingRow) : List ColumnModel × List ColumnModel :=
  (insertFillCells filling_row 0 filling_columns,
   other_columns.map ColumnModel.insertDefault)

/-- `static void copyRowFromColumns(...)` (lines 131–135): append row
`row_num` of each source column to the matching destination column. -/
def copyRowFromColumns (dest source : List ColumnModel) (row_num : Nat) :
    List ColumnModel :=
  List.zipWith (fun d s => d.insert (s.cells.getD row_num Field.null)) dest source

/-- `Block::getPositionByName` (external): first header position carrying
the name. -/
def getPositionByName (header : List (String × ColumnType)) (name : String) : Option Nat :=
  header.findIdx? fun p => p.1 = name

/-- The position-resolution loop of the stream constructor (lines 146–151):
one header position per sort-description entry, in order. -/
def computeFillPositions (header : List (String × ColumnType)) :
    List SortColumnDescription → Option (List Nat)
  | [] => some []
  | e :: rest =>
      match getPositionByName header e.column_name, computeFillPositions header rest with
      | some p, some ps => some (p :: ps)
      | _, _ => none

/-- Outcome of the `FillingBlockInputStream` constructor checks. -/
inductive CtorResult where
  | ok (fill_positions other_positions : List Nat) : CtorResult
  | error (msg : String) : CtorResult
  deriving DecidableEq, Repr

/-- The validation loop of the stream constructor (lines 153–174), iterating
`i` over header positions (the first `Nat` argument is the number of
remaining iterations, `header.length - i`). Note the source indexes
`sort_description[i]` by the HEADER position `i`, not by the column's index
within the sort description; an out-of-range access (undefined behaviour in
the C++) is surfaced as a distinct error. -/
def ctorScan (header : List (String × ColumnType)) (sd : List SortColumnDescription)
    (fillPos : List Nat) : Nat → Nat → List Nat → CtorResult
  | 0, _, others => CtorResult.ok fillPos others
  | k + 1, i, others =>
      let ty := (header.getD i ("", ColumnType.tString)).2
      if fillPos.contains i then
        if isColumnedAsNumber ty = false then
          CtorResult.error "WITH FILL can be used only with numeric types"
        else
          match sd.get? i with
          | none => CtorResult.error "undefined behaviour: sort_description index out of range"
          | some e =>
              let fill_from := e.fill_description.fill_from
              let fill_to := e.fill_description.fill_to
              if isValueRepresentedByUnsignedInteger ty ∧
                  ((fill_from.isNull = false ∧ less fill_from (Field.int64 0) 1 = true) ∨
                    (fill_to.isNull = false ∧ less fill_to (Field.int64 0) 1 = true)) then
                CtorResult.error "WITH FILL bound values cannot be negative for unsigned type"
              else ctorScan header sd fillPos k (i + 1) others
      else ctorScan header sd fillPos k (i + 1) (others ++ [i])

/-- `FillingBlockInputStream::FillingBlockInputStream` (lines 138–175):
resolve fill-column positions by name, then validate each header column. -/
def fillingCtorCheck (header : List (String × ColumnType))
    (sd : List SortColumnDescription) : CtorResult :=
  match computeFillPositions header sd with
  | none => CtorResult.error "no column in header"
  | some fillPos => ctorScan header sd fillPos header.length 0 []

/-- The stream state carried across `readImpl` calls: the header, the
position tables, the two `FillingRow` instances and the `first` flag. -/
structure StreamState where
  header : List (String × ColumnType)
  fill_positions : List Nat
  other_positions : List Nat
  filling_row : FillingRow
  next_row : FillingRow
  first : Bool
  deriving DecidableEq, Repr

/-- Build the initial stream state after a successful constructor run
(`filling_row(sort_description_)`, `next_row(sort_description_)`,
`first = true`). -/
def streamInit (header : List (String × ColumnType))
    (sd : List SortColumnDescription) (fillPos otherPos : List Nat) : StreamState :=
  { header := header
    fill_positions := fillPos
    other_positions := otherPos
    filling_row := FillingRow.construct sd
    next_row := FillingRow.construct sd
    first := true }

/-- `init_columns_by_positions` (lines 185–194) applied to a block: the
snapshot columns at the given positions, and fresh empty clones of them. -/
def initColumnsByPositions (block : List ColumnModel) (positions : List Nat) :
    List ColumnModel × List ColumnModel :=
  (positions.map fun p => block.getD p defaultColumn,
   positions.map fun p => { block.getD p defaultColumn with cells := [] })

/-- A header rendered as an empty block (used when upstream is exhausted:
`init_columns_by_positions(header, ...)`). -/
def headerBlock (header : List (String × ColumnType)) : List ColumnModel :=
  header.map fun p => ⟨p.2, []⟩

/-- The `while (filling_row.next(next_row))` loop (lines 206–210 and
244–245), fuelled: returns the evolved cursor, the grown result columns,
whether any row was generated, and whether the loop genuinely finished
(i.e. `next` returned false before fuel ran out). -/
def genLoop : Nat → FillingRow → List Field → List ColumnModel → List ColumnModel →
    FillingRow × List ColumnModel × List ColumnModel × Bool × Bool
  | 0, fr, _, fcols, ocols => (fr, fcols, ocols, false, false)
  | fuel + 1, fr, target, fcols, ocols =>
      let r := fr.next target
      if r.2 then
        let ins := insertFromFillingRow fcols ocols r.1
        let rest := genLoop fuel r.1 target ins.1 ins.2
        (rest.1, rest.2.1, rest.2.2.1, true, rest.2.2.2.2)
  else (r.1, fcols, ocols, false, true)

/-- The generated rows of one `while (next)` run, as cursor snapshots (used
to state what the assembled batch contains). -/
def genRowList : Nat → FillingRow → List Field → List (List Field)
  | 0, _, _ => []
  | fuel + 1, fr, target =>
      let r := fr.next target
      if r.2 then r.1.row :: genRowList fuel r.1 target else []

/-- `FillingBlockInputStream::createResultBlock` (lines 254–263): place the
result columns back at their header positions. -/
def createResultBlock (header : List (String × ColumnType)) (fillPos otherPos : List Nat)
    (fill_columns other_columns : List ColumnModel) : List ColumnModel :=
  (List.range header.length).map fun i =>
    match fillPos.findIdx? fun p => p = i with
    | some j => fill_columns.getD j defaultColumn
    | none =>
        match otherPos.findIdx? fun p => p = i with
        | some j => other_columns.getD j defaultColumn
        | none => defaultColumn

/-- The boundary target written into `next_row` when upstream is exhausted
(lines 203–204): each column's `fill_to`. -/
def endTarget (st : StreamState) : FillingRow :=
  { st.next_row with
    row := st.next_row.row.mapIdx fun i v =>
      if i < st.filling_row.size then (st.filling_row.getFillDescription i).fill_to else v }

/-- The `if (!block)` branch of `readImpl` (lines 197–216): set `next_row`
to the `fill_to` bounds, drain the cursor, and return the assembled batch
when at least one row was generated — otherwise the empty-stream signal
(`none`). The trailing `Bool` reports that the fuelled loop finished. -/
def readImplNone (st : StreamState) (fuel : Nat) :
    Option (List ColumnModel) × StreamState × Bool :=
  let res_fill := (initColumnsByPositions (headerBlock st.header) st.fill_positions).2
  let res_other := (initColumnsByPositions (headerBlock st.header) st.other_positions).2
  let nr := endTarget st
  let g := genLoop fuel st.filling_row nr.row res_fill res_other
  let st' := { st with filling_row := g.1, next_row := nr }
  if g.2.2.2.1 then
    (some (createResultBlock st.header st.fill_positions st.other_positions g.2.1 g.2.2.1),
     st', g.2.2.2.2)
  else (none, st', g.2.2.2.2)

/-- The first-batch bound check of lines 225–234: find the first column
whose non-null `fill_from` lies strictly before the column's value at row 0,
reset the cursor from that column onward and emit one synthesized row (the
first `Nat` argument counts the remaining iterations, `fr.size - i`). -/
def firstCheck (fr : FillingRow) (old_fill : List ColumnModel) :
    Nat → List ColumnModel → List ColumnModel → Nat →
    FillingRow × List ColumnModel × List ColumnModel
  | 0, res_fill, res_other, _ => (fr, res_fill, res_other)
  | k + 1, res_fill, res_other, i =>
      let fd := fr.getFillDescription i
      if fd.fill_from.isNull = false ∧
          less fd.fill_from ((old_fill.getD i defaultColumn).cells.getD 0 Field.null)
            (fr.getDirection i) = true then
        let fr1 := fr.initFromDefaults i
        let ins := insertFromFillingRow res_fill res_other fr1
        (fr1, ins.1, ins.2)
      else firstCheck fr old_fill k res_fill res_other (i + 1)

/-- The per-row loop of lines 239–249: for each input row, set `next_row`
from it, drain the cursor toward it, then copy the real row (the first `Nat`
argument counts the remaining rows, `rows - row_ind`). Returns the evolved
rows and columns plus a flag that every inner loop finished. -/
def processRows (fuel : Nat) (old_fill old_other : List ColumnModel) :
    Nat → FillingRow → FillingRow → List ColumnModel → List ColumnModel → Nat →
    FillingRow × FillingRow × List ColumnModel × List ColumnModel × Bool
  | 0, fr, nr, res_fill, res_other, _ => (fr, nr, res_fill, res_other, true)
  | k + 1, fr, nr, res_fill, res_other, row_ind =>
      let nr1 := nr.initFromColumns (old_fill.map ColumnModel.cells) row_ind 0
      let g := genLoop fuel fr nr1.row res_fill res_other
      let rf := copyRowFromColumns g.2.1 old_fill row_ind
      let ro := copyRowFromColumns g.2.2.1 old_other row_ind
      let rest := processRows fuel old_fill old_other k g.1 nr1 rf ro (row_ind + 1)
      (rest.1, rest.2.1, rest.2.2.1, rest.2.2.2.1, rest.2.2.2.2 && g.2.2.2.2)

/-- The non-empty-block branch of `readImpl` (lines 218–251). -/
def readImplSome (st : StreamState) (block : List ColumnModel) (fuel : Nat) :
    Option (List ColumnModel) × StreamState × Bool :=
  let rows := (block.getD 0 defaultColumn).cells.length
  let snapF := initColumnsByPositions block st.fill_positions
  let snapO := initColumnsByPositions block st.other_positions
  let step1 :=
    if st.first then
      let fr0 := st.filling_row.initFromColumns (snapF.1.map ColumnModel.cells) 0 0
      firstCheck fr0 snapF.1 fr0.size snapF.2 snapO.2 0
    else (st.filling_row, snapF.2, snapO.2)
  let pr := processRows fuel snapF.1 snapO.1 rows step1.1 st.next_row step1.2.1 step1.2.2 0
  (some (createResultBlock st.header st.fill_positions st.other_positions pr.2.2.1 pr.2.2.2.1),
   { st with filling_row := pr.1, next_row := pr.2.1, first := false },
   pr.2.2.2.2)

/-- `Block FillingBlockInputStream::readImpl()` (lines 178–252): `none`
input models an exhausted upstream. -/
def readImpl (st : StreamState) (input : Option (List ColumnModel)) (fuel : Nat) :
    Option (List ColumnModel) × StreamState × Bool :=
  match input with
  | none => readImplNone st fuel
  | some block => readImplSome st block fuel

/-! ### Concrete scenarios used by the claims -/

/-- Single signed 64-bit fill column `a` with `fill_from=1`, `fill_to=5`,
`fill_step=1`, ascending (the spec's end-to-end scenario). -/
def sdOneAsc : List SortColumnDescription :=
  [⟨"a", 1, ⟨Field.int64 1, Field.int64 5, Field.int64 1⟩⟩]

def headerOne : List (String × ColumnType) := [("a", ColumnType.tInt64)]

/-- Fresh stream state for the single-column scenario (the constructor
resolves fill position 0 and no other columns). -/
def stOneAsc : StreamState := streamInit headerOne sdOneAsc [0] []

/-- The end-to-end input batch: key values 2 and 4. -/
def c1Block : List ColumnModel :=
  [⟨ColumnType.tInt64, [Field.int64 2, Field.int64 4]⟩]

/-- First driver call on the end-to-end input. -/
def c1First : Option (List ColumnModel) × StreamState × Bool :=
  readImpl stOneAsc (some c1Block) 100

/-- Second driver call: upstream exhausted. -/
def c1Second : Option (List ColumnModel) × StreamState × Bool :=
  readImpl c1First.2.1 none 100

/-- Key-column cells of an output block (empty for the end-of-stream
signal). -/
def keyCells (b : Option (List ColumnModel)) : List Field :=
  match b with
  | some cols => (cols.getD 0 defaultColumn).cells
  | none => []

/-- The full key sequence produced across all driver calls of the
end-to-end scenario. -/
def c1Keys : List Field := keyCells c1First.1 ++ keyCells c1Second.1

/-- The driver call for the no-input scenario: the very first pull already
reports an exhausted upstream. -/
def c2Result : Option (List ColumnModel) × StreamState × Bool :=
  readImpl stOneAsc none 100

/-- Cursor for the single-column catch-up counterexample: value 3, one
step short of the target 4. -/
def c3St : FillingRow :=
  { description := [⟨"a", 1, ⟨Field.int64 1, Field.int64 10, Field.int64 1⟩⟩],
    row := [Field.int64 3] }

def c3Target : List Field := [Field.int64 4]

/-- Two-column cursor whose second column's `fill_from` leaves room below
the target (the catch-up case that does return true). -/
def c3wSt : FillingRow :=
  { description := [⟨"a", 1, ⟨Field.int64 0, Field.int64 10, Field.int64 1⟩⟩,
                    ⟨"b", 1, ⟨Field.int64 0, Field.null, Field.int64 1⟩⟩],
    row := [Field.int64 1, Field.int64 5] }

def c3wTarget : List Field := [Field.int64 2, Field.int64 3]

/-- Two-column cursor for the failure-mutation claim: the second column has
no bounds, so the catch-up loop copies the target's value into it. -/
def c9St : FillingRow :=
  { description := [⟨"a", 1, ⟨Field.int64 0, Field.int64 10, Field.int64 1⟩⟩,
                    ⟨"b", 1, ⟨Field.null, Field.null, Field.int64 1⟩⟩],
    row := [Field.int64 1, Field.int64 5] }

def c9Target : List Field := [Field.int64 2, Field.int64 7]

/-- A sort description whose step (-1) has the opposite sign to its
ascending direction. -/
def c4Sd : List SortColumnDescription :=
  [⟨"a", 1, ⟨Field.int64 1, Field.int64 5, Field.int64 (-1)⟩⟩]

/-- Header for the layout-dependence scenario: the unsigned fill column `a`
sits at header position 0, the signed fill column `b` at position 1, while
the sort description lists `b` first. -/
def c5Header : List (String × ColumnType) :=
  [("a", ColumnType.tUInt64), ("b", ColumnType.tInt64)]

/-- Sort description listing `b` (unproblematic bounds) before the unsigned
column `a` whose `fill_to` is -1. -/
def c5Sd : List SortColumnDescription :=
  [⟨"b", 1, ⟨Field.null, Field.null, Field.int64 1⟩⟩,
   ⟨"a", 1, ⟨Field.null, Field.int64 (-1), Field.int64 1⟩⟩]

/-- The same unsigned column `a` with `fill_to=-1`, alone in the layout. -/
def c5bHeader : List (String × ColumnType) := [("a", ColumnType.tUInt64)]

def c5bSd : List SortColumnDescription :=
  [⟨"a", 1, ⟨Field.null, Field.int64 (-1), Field.int64 1⟩⟩]

/-! ### Predicates and assembly helpers used to state the claims -/

/-- Position `k` of cursor and target "agree" for the scan of lines 46–48:
one side is null (a null entry counts as already equal) or the values are
equal. -/
@[reducible]
def agreesAt (row target : List Field) (k : Nat) : Prop :=
  (row.getD k Field.null).isNull = true ∨ (target.getD k Field.null).isNull = true ∨
    equalsF (row.getD k Field.null) (target.getD k Field.null) = true

/-- A fill description with one bound stored unsigned and the other
signed. -/
@[reducible]
def mixedRep (fd : FillDescription) : Prop :=
  (fd.fill_from.getType = FieldType.tUInt64 ∧ fd.fill_to.getType = FieldType.tInt64) ∨
    (fd.fill_from.getType = FieldType.tInt64 ∧ fd.fill_to.getType = FieldType.tUInt64)

/-- The cell a column of type `ty` receives for cursor value `f`: the
type's default when `f` is null (`insertDefault`), otherwise `f` itself. -/
def emitCell (ty : ColumnType) (f : Field) : Field :=
  if f.isNull then defaultValueOf ty else f

/-- Append to each fill column (the one at offset `j` matches cursor
position `j`) the cells contributed by the given generated rows. -/
def assembleFill (rows : List (List Field)) : Nat → List ColumnModel → List ColumnModel
  | _, [] => []
  | j, c :: cs =>
      { c with cells := c.cells ++ rows.map fun r => emitCell c.ctype (r.getD j Field.null) } ::
        assembleFill rows (j + 1) cs

/-- Append `n` default cells to each non-fill column. -/
def assembleOther (n : Nat) (cols : List ColumnModel) : List ColumnModel :=
  cols.map fun c => { c with cells := c.cells ++ List.replicate n (defaultValueOf c.ctype) }

/-- The condition on which the catch-up loop of lines 75–87 stops with
`is_less = true` at column `i`: a non-null `fill_from` strictly before the
non-null target value under the column's direction. -/
@[reducible]
def catchCond (d : List SortColumnDescription) (to_row : List Field) (i : Nat) : Prop :=
  (d.getD i defaultSortColumn).fill_description.fill_from.isNull = false ∧
    (to_row.getD i Field.null).isNull = false ∧
    less (d.getD i defaultSortColumn).fill_description.fill_from (to_row.getD i Field.null)
      (d.getD i defaultSortColumn).direction = true

/-- Cursor with a single null entry (the target of the C6 witness). -/
def c6St : FillingRow :=
  { description := [⟨"a", 1, ⟨Field.int64 1, Field.int64 5, Field.int64 1⟩⟩],
    row := [Field.null] }

def c6Target : List Field := [Field.int64 5]

/-- A fill description whose `fill_from` is stored unsigned while `fill_to`
is stored signed. -/
def c7MixedSd : List SortColumnDescription :=
  [⟨"a", 1, ⟨Field.uint64 3, Field.int64 7, Field.int64 1⟩⟩]

/-- A single empty Int64 fill column (insertion witness). -/
def c10FillCols : List ColumnModel := [⟨ColumnType.tInt64, []⟩]

/-- A single empty String non-fill column (insertion witness). -/
def c10OtherCols : List ColumnModel := [⟨ColumnType.tString, []⟩]

/-! ### Claim theorems (concrete evaluations) -/

/-- C1 (counterexample): in the end-to-end scenario (Int64 key,
`fill_from=1, fill_to=5, fill_step=1`, ascending, input keys [2, 4]) the
full output key sequence across all `readImpl` calls is NOT `1,2,3,4,5`;
both generation loops genuinely terminated, so this is not a fuel
artefact. -/
theorem c1_not_one_to_five :
    c1Keys ≠ [Field.int64 1, Field.int64 2, Field.int64 3, Field.int64 4, Field.int64 5] ∧
    c1First.2.2 = true ∧ c1Second.2.2 = true := by decide

/-- C1 (amended): the full output key sequence of the end-to-end scenario
is `1,2,3,4` — a leading 1 from the first-row bound check and a 3 between
the real rows, but no trailing 5: stepping the cursor from 4 yields exactly
`fill_to = 5`, the catch-up branch then returns false, and the
end-of-stream call propagates the empty-stream signal. -/
theorem c1_output_keys :
    c1Keys = [Field.int64 1, Field.int64 2, Field.int64 3, Field.int64 4] ∧
    c1Second.1 = none ∧
    c1First.2.2 = true ∧ c1Second.2.2 = true := by decide

/-- C2 (counterexample): with `fill_from=1, fill_to=5, fill_step=1`,
ascending, and an upstream that yields no rows at all, the driver
propagates the empty-stream signal and generates nothing, although the
claim's formula predicts `floor((5-1)/1) + 1 = 5` generated keys. -/
theorem c2_no_input_empty_concrete :
    c2Result.1 = none ∧ c2Result.2.2 = true ∧ ((5 - 1) / 1 + 1 : Int) = 5 := by decide

/-- C3 (counterexample): single fill column, cursor 3, target 4, step 1:
the first disagreeing position is 0, the target is not behind the cursor,
no trailing column fires, and the stepped value 4 equals the target — the
catch-up case — yet `next` returns false (the claim says it returns true
for every cursor and target reaching this branch). -/
theorem c3_catch_up_single_column_returns_false :
    findPosList c3St.row c3Target = 0 ∧
    less (c3Target.getD 0 Field.null) (c3St.get 0) (c3St.getDirection 0) = false ∧
    trailingScan c3St 0 (c3St.size - 1) = none ∧
    equalsF (fieldSum (c3St.getFillDescription 0).fill_step (c3St.get 0))
      (c3Target.getD 0 Field.null) = true ∧
    (c3St.next c3Target).2 = false := by decide

/-- C9: `FillingRow::next` is not atomic on failure — here it returns
false, yet overwrites the cursor at the disagreeing position 0 with the
stepped value 2 and copies the target's value 7 into the trailing
position. -/
theorem c9_next_mutates_on_failure :
    (c9St.next c9Target).2 = false ∧
    (c9St.next c9Target).1.row = [Field.int64 2, Field.int64 7] ∧
    c9St.row = [Field.int64 1, Field.int64 5] ∧
    (c9St.next c9Target).1.row ≠ c9St.row ∧
    equalsF (fieldSum (c9St.getFillDescription 0).fill_step (c9St.get 0))
      (c9Target.getD 0 Field.null) = true := by decide

/-- C4 (counterexample): the stream constructor accepts a fill column whose
step's sign (-1) contradicts its ascending direction (+1): no sign
validation happens at construction. -/
theorem c4_wrong_sign_step_accepted :
    ((c4Sd.getD 0 defaultSortColumn).fill_description.fill_step.val?.getD 0).sign ≠
      (c4Sd.getD 0 defaultSortColumn).direction ∧
    fillingCtorCheck headerOne c4Sd = CtorResult.ok [0] [] := by decide

/-- C5: the unsigned fill column `a` has the negative bound `fill_to = -1`,
yet when `a` sits at header position 0 while being listed second in the
sort description, construction succeeds — the validation loop reads
`sort_description[i]` at the HEADER position `i`, so it checks `b`'s
bounds against `a`'s type. The same column alone in the layout IS
rejected, showing the rejection depends on where the fill column sits. -/
theorem c5_unsigned_negative_bound_not_rejected :
    isValueRepresentedByUnsignedInteger ColumnType.tUInt64 = true ∧
    (c5Sd.getD 1 defaultSortColumn).fill_description.fill_to.isNull = false ∧
    less (c5Sd.getD 1 defaultSortColumn).fill_description.fill_to (Field.int64 0) 1 = true ∧
    fillingCtorCheck c5Header c5Sd = CtorResult.ok [1, 0] [] ∧
    fillingCtorCheck c5bHeader c5bSd =
      CtorResult.error "WITH FILL bound values cannot be negative for unsigned type" := by
  decide

/-! ### Helper lemmas about the disagreement scan -/

theorem agreesAt_cons (x y : Field) (xs ys : List Field) (k : Nat) :
    agreesAt (x :: xs) (y :: ys) (k + 1) ↔ agreesAt xs ys k := by
  simp [agreesAt, List.getD]

theorem findPosList_eq_length_of_agree :
    ∀ (row target : List Field), row.length ≤ target.length →
      (∀ k, k < row.length → agreesAt row target k) →
      findPosList row target = row.length
  | [], _, _, _ => rfl
  | x :: xs, [], hlen, _ => by simp at hlen
  | x :: xs, y :: ys, hlen, h => by
      have h0 := h 0 (by simp)
      have hrest : findPosList xs ys = xs.length :=
        findPosList_eq_length_of_agree xs ys (by simpa using hlen)
          (fun k hk => (agreesAt_cons x y xs ys k).mp (h (k + 1) (by simpa using hk)))
      simp only [findPosList, hrest, List.length_cons]
      rw [if_neg]
      rintro ⟨h1, h2, h3⟩
      simp only [agreesAt, List.getD] at h0
      rcases h0 with h0 | h0 | h0
      · exact absurd h0 (by simp [h1])
      · exact absurd h0 (by simp [h2])
      · exact absurd h0 (by simp [h3])

theorem findPosList_eq_of_first_disagree :
    ∀ (row target : List Field) (pos : Nat), pos < row.length →
      (∀ k, k < pos → agreesAt row target k) →
      ¬ agreesAt row target pos →
      findPosList row target = pos
  | [], _, pos, hpos, _, _ => by simp at hpos
  | x :: xs, [], pos, _, _, hdis => by
      exact absurd (by simp [agreesAt, List.getD, Field.isNull]) hdis
  | x :: xs, y :: ys, 0, _, _, hdis => by
      simp only [agreesAt, List.getD] at hdis
      push_neg at hdis
      simp only [findPosList]
      rw [if_pos]
      refine ⟨?_, ?_, ?_⟩
      · cases hx : (x.isNull) <;> simp_all
      · cases hy : (y.isNull) <;> simp_all
      · cases he : (equalsF x y) <;> simp_all
  | x :: xs, y :: ys, pos + 1, hpos, h, hdis => by
      have h0 := h 0 (by omega)
      have hrest : findPosList xs ys = pos :=
        findPosList_eq_of_first_disagree xs ys pos (by simpa using hpos)
          (fun k hk => (agreesAt_cons x y xs ys k).mp (h (k + 1) (by omega)))
          (fun hc => hdis ((agreesAt_cons x y xs ys pos).mpr hc))
      simp only [findPosList, hrest]
      rw [if_neg]
      rintro ⟨h1, h2, h3⟩
      simp only [agreesAt, List.getD] at h0
      rcases h0 with h0 | h0 | h0
      · exact absurd h0 (by simp [h1])
      · exact absurd h0 (by simp [h2])
      · exact absurd h0 (by simp [h3])

/-- C6: `FillingRow::next` returns false when (a) no position has both
cursor and target non-null and unequal (null entries count as already
equal), or (b) at the first such position the target is strictly behind the
cursor under the column's direction. -/
theorem c6_next_returns_false (st : FillingRow) (target : List Field)
    (hlen : st.row.length ≤ target.length)
    (h : (∀ k, k < st.size → agreesAt st.row target k) ∨
      (∃ pos, pos < st.size ∧ (∀ k, k < pos → agreesAt st.row target k) ∧
        ¬ agreesAt st.row target pos ∧
        less (target.getD pos Field.null) (st.get pos) (st.getDirection pos) = true)) :
    (st.next target).2 = false := by
  rcases h with h | ⟨pos, hpos, hagree, hdis, hless⟩
  · have hp : findPosList st.row target = st.size :=
      findPosList_eq_length_of_agree st.row target hlen h
    simp only [FillingRow.next, hp, if_pos]
  · have hp : findPosList st.row target = pos :=
      findPosList_eq_of_first_disagree st.row target pos hpos hagree hdis
    have hne : ¬ (pos = st.size) := by
      simp only [FillingRow.size] at hpos ⊢
      omega
    simp only [FillingRow.next, hp, if_neg hne, hless, if_pos]

/-- C6 witness: a cursor whose single entry is null agrees with every
target, and `next` indeed returns false. -/
theorem c6_next_returns_false_witness :
    c6St.row.length ≤ c6Target.length ∧
    (∀ k, k < c6St.size → agreesAt c6St.row c6Target k) ∧
    (c6St.next c6Target).2 = false :=
  ⟨by decide, by decide,
    c6_next_returns_false c6St c6Target (by decide) (Or.inl (by decide))⟩

/-! ### The cursor that was never initialized generates nothing -/

theorem next_eq_self_false_of_null_row (st : FillingRow) (target : List Field)
    (hlen : st.row.length ≤ target.length)
    (hnull : ∀ f ∈ st.row, f.isNull = true) :
    st.next target = (st, false) := by
  have hp : findPosList st.row target = st.size := by
    refine findPosList_eq_length_of_agree st.row target hlen ?_
    intro k hk
    left
    have hmem : st.row.getD k Field.null ∈ st.row := by
      rw [List.getD_eq_getElem st.row Field.null hk]
      exact List.getElem_mem hk
    exact hnull _ hmem
  simp only [FillingRow.next, hp, if_pos]

/-- C2 (amended): for every configuration, when the upstream source yields
no input rows at all, the cursor is still in its null-initialized state, so
the driver generates no rows whatsoever and propagates the empty-stream
signal — the generated key sequence is empty, not `a, a+s, …`. -/
theorem c2_no_input_generates_nothing (header : List (String × ColumnType))
    (sd : List SortColumnDescription) (fillPos otherPos : List Nat) (fuel : Nat)
    (hfuel : 0 < fuel) :
    (readImplNone (streamInit header sd fillPos otherPos) fuel).1 = none ∧
    (readImplNone (streamInit header sd fillPos otherPos) fuel).2.2 = true ∧
    genRowList fuel (streamInit header sd fillPos otherPos).filling_row
      (endTarget (streamInit header sd fillPos otherPos)).row = [] := by
  obtain ⟨n, rfl⟩ : ∃ n, fuel = n + 1 := ⟨fuel - 1, by omega⟩
  set st := streamInit header sd fillPos otherPos with hst
  have hrow : st.filling_row.row =
      List.replicate (sd.map fun e =>
        { e with fill_description := normalizeFill e.fill_description }).length Field.null := rfl
  have hlen : st.filling_row.row.length ≤ (endTarget st).row.length := by
    simp [hst, endTarget, streamInit, FillingRow.construct, List.length_mapIdx]
  have hnull : ∀ f ∈ st.filling_row.row, f.isNull = true := by
    intro f hf
    rw [hrow] at hf
    rw [List.eq_of_mem_replicate hf]
    rfl
  have hnext := next_eq_self_false_of_null_row st.filling_row (endTarget st).row hlen hnull
  refine ⟨?_, ?_, ?_⟩
  · simp only [readImplNone, genLoop, hnext, if_neg (Bool.false_ne_true)]
  · simp only [readImplNone, genLoop, hnext, if_neg (Bool.false_ne_true)]
  · simp only [genRowList, hnext, if_neg (Bool.false_ne_true)]

/-- C2 witness for the amended theorem: the single-column scenario with
positive fuel. -/
theorem c2_no_input_generates_nothing_witness :
    (readImplNone (streamInit headerOne sdOneAsc [0] []) 100).1 = none ∧
    (readImplNone (streamInit headerOne sdOneAsc [0] []) 100).2.2 = true ∧
    genRowList 100 (streamInit headerOne sdOneAsc [0] []).filling_row
      (endTarget (streamInit headerOne sdOneAsc [0] [])).row = [] :=
  c2_no_input_generates_nothing headerOne sdOneAsc [0] [] 100 (by decide)

/-- C4 (amended): the stream constructor never inspects `fill_step`: for a
signed numeric fill column it accepts every fill description, whatever the
step's sign — it validates only that fill columns are numeric and that
unsigned-represented fill columns have non-negative bounds. -/
theorem c4_construction_ignores_step (fd : FillDescription) :
    fillingCtorCheck headerOne [⟨"a", 1, fd⟩] = CtorResult.ok [0] [] := by
  simp [fillingCtorCheck, computeFillPositions, getPositionByName, headerOne, ctorScan,
    isColumnedAsNumber, isValueRepresentedByUnsignedInteger, List.findIdx?]

/-! ### Bound normalization and description preservation -/

theorem normalizeFill_mixed (fd : FillDescription) (h : mixedRep fd) :
    (normalizeFill fd).fill_from.getType = FieldType.tInt64 ∧
    (normalizeFill fd).fill_to.getType = FieldType.tInt64 := by
  obtain ⟨ffrom, fto, fstep⟩ := fd
  rcases h with ⟨h1, h2⟩ | ⟨h1, h2⟩ <;> cases ffrom <;> cases fto <;>
    simp_all [Field.getType, normalizeFill]

theorem catchUp_description (to_row : List Field) :
    ∀ (k : Nat) (st : FillingRow) (i : Nat),
      (catchUp to_row k st i).1.description = st.description
  | 0, _, _ => rfl
  | k + 1, st, i => by
      simp only [catchUp]
      split
      · rfl
      · exact catchUp_description to_row k _ (i + 1)

theorem next_description (st : FillingRow) (target : List Field) :
    (st.next target).1.description = st.description := by
  simp only [FillingRow.next]
  split
  · rfl
  · split
    · rfl
    · split
      · rfl
      · split
        · exact catchUp_description target _ st _
        · split
          · rfl
          · rfl

/-- C7: `FillingRow` construction normalizes mixed-representation bounds —
whenever one of a column's `fill_from`/`fill_to` is stored unsigned and the
other signed, after construction both are stored in the signed (Int64)
representation — and every subsequent operation on the row (`next`,
`initFromDefaults`, `initFromColumns`) leaves the fill descriptions
untouched. -/
theorem c7_bounds_normalized_and_preserved (d : List SortColumnDescription) (i : Nat)
    (h : mixedRep ((d.getD i defaultSortColumn).fill_description)) :
    (((FillingRow.construct d).description.getD i defaultSortColumn).fill_description.fill_from.getType
        = FieldType.tInt64 ∧
      ((FillingRow.construct d).description.getD i defaultSortColumn).fill_description.fill_to.getType
        = FieldType.tInt64) ∧
    ∀ (st : FillingRow) (target : List Field) (cols : List (List Field)) (rn fp : Nat),
      (st.next target).1.description = st.description ∧
      (st.initFromDefaults fp).description = st.description ∧
      (st.initFromColumns cols rn fp).description = st.description := by
  refine ⟨?_, fun st target cols rn fp =>
    ⟨next_description st target, rfl, rfl⟩⟩
  by_cases hi : i < d.length
  · have hget : (FillingRow.construct d).description.getD i defaultSortColumn =
        { d[i] with fill_description := normalizeFill d[i].fill_description } := by
      show ((d.map fun e =>
        { e with fill_description := normalizeFill e.fill_description }).getD i
          defaultSortColumn) = _
      rw [List.getD_eq_getElem _ _ (by simpa using hi), List.getElem_map]
    have hd : (d.getD i defaultSortColumn).fill_description = d[i].fill_description := by
      rw [List.getD_eq_getElem _ _ hi]
    rw [hget]
    rw [hd] at h
    exact normalizeFill_mixed _ h
  · exfalso
    rw [List.getD_eq_default _ _ (by omega)] at h
    rcases h with ⟨h1, _⟩ | ⟨h1, _⟩ <;> simp [defaultSortColumn, Field.getType] at h1

/-- C7 witness: a column whose `fill_from` is stored unsigned and `fill_to`
signed; after construction both bounds are Int64 and operations preserve
the description. -/
theorem c7_bounds_normalized_witness :
    mixedRep ((c7MixedSd.getD 0 defaultSortColumn).fill_description) ∧
    ((((FillingRow.construct c7MixedSd).description.getD 0
          defaultSortColumn).fill_description.fill_from.getType = FieldType.tInt64 ∧
      (((FillingRow.construct c7MixedSd).description.getD 0
          defaultSortColumn).fill_description.fill_to.getType = FieldType.tInt64)) ∧
      ∀ (st : FillingRow) (target : List Field) (cols : List (List Field)) (rn fp : Nat),
        (st.next target).1.description = st.description ∧
        (st.initFromDefaults fp).description = st.description ∧
        (st.initFromColumns cols rn fp).description = st.description) :=
  ⟨by decide, c7_bounds_normalized_and_preserved c7MixedSd 0 (by decide)⟩

/-! ### Row insertion emits defaults, never nulls -/

theorem insertFillCells_getD (st : FillingRow) :
    ∀ (cs : List ColumnModel) (base j : Nat), j < cs.length →
      (insertFillCells st base cs).getD j defaultColumn =
        (if (st.get (base + j)).isNull then (cs.getD j defaultColumn).insertDefault
         else (cs.getD j defaultColumn).insert (st.get (base + j)))
  | [], _, j, hj => by simp at hj
  | c :: cs, base, 0, _ => by simp [insertFillCells, List.getD]
  | c :: cs, base, j + 1, hj => by
      have ih := insertFillCells_getD st cs (base + 1) j (by simpa using hj)
      simp only [insertFillCells, List.getD_cons_succ]
      rw [ih]
      have harith : base + 1 + j = base + (j + 1) := by omega
      rw [harith]

/-- C10: in every synthesized row, a fill column whose cursor value is null
receives the column type's default value (`insertDefault`), not a null; a
fill column with a non-null cursor value receives that value; and every
non-fill column receives its type default — for all cursor states. -/
theorem c10_insert_defaults (f o : List ColumnModel) (st : FillingRow) (i j : Nat)
    (hi : i < f.length) (hj : j < o.length) :
    (insertFromFillingRow f o st).1.getD i defaultColumn =
      (if (st.get i).isNull then (f.getD i defaultColumn).insertDefault
       else (f.getD i defaultColumn).insert (st.get i)) ∧
    (insertFromFillingRow f o st).2.getD j defaultColumn =
      (o.getD j defaultColumn).insert (defaultValueOf (o.getD j defaultColumn).ctype) := by
  constructor
  · have h := insertFillCells_getD st f 0 i hi
    simpa [insertFromFillingRow] using h
  · show (o.map ColumnModel.insertDefault).getD j defaultColumn = _
    rw [List.getD_eq_getElem _ _ (by simpa using hj), List.getElem_map,
      ← List.getD_eq_getElem o defaultColumn hj]
    rfl

/-- C10 witness: a null cursor entry becomes the Int64 default 0 in the
fill column, and the non-fill string column receives its default "". -/
theorem c10_insert_defaults_witness :
    (0 : Nat) < c10FillCols.length ∧
    (0 : Nat) < c10OtherCols.length ∧
    ((insertFromFillingRow c10FillCols c10OtherCols c6St).1.getD 0 defaultColumn =
      (if (c6St.get 0).isNull then (c10FillCols.getD 0 defaultColumn).insertDefault
       else (c10FillCols.getD 0 defaultColumn).insert (c6St.get 0)) ∧
      (insertFromFillingRow c10FillCols c10OtherCols c6St).2.getD 0 defaultColumn =
        (c10OtherCols.getD 0 defaultColumn).insert
          (defaultValueOf (c10OtherCols.getD 0 defaultColumn).ctype)) :=
  ⟨by decide, by decide,
    c10_insert_defaults c10FillCols c10OtherCols c6St 0 0 (by decide) (by decide)⟩

/-! ### The generation loop assembles exactly the generated rows -/

theorem assembleFill_nil : ∀ (j : Nat) (cs : List ColumnModel), assembleFill [] j cs = cs
  | _, [] => rfl
  | j, c :: cs => by
      simp only [assembleFill, List.map_nil, List.append_nil, assembleFill_nil (j + 1) cs]

theorem insert_emitCell (c : ColumnModel) (f : Field) :
    (if f.isNull then c.insertDefault else c.insert f) = c.insert (emitCell c.ctype f) := by
  unfold emitCell ColumnModel.insertDefault
  split <;> rfl

theorem assembleFill_insert (st : FillingRow) (rows : List (List Field)) :
    ∀ (cs : List ColumnModel) (j : Nat),
      assembleFill rows j (insertFillCells st j cs) = assembleFill (st.row :: rows) j cs
  | [], _ => rfl
  | c :: cs, j => by
      simp only [insertFillCells]
      rw [insert_emitCell]
      simp only [assembleFill, ColumnModel.insert, List.map_cons, List.append_assoc,
        List.singleton_append, FillingRow.get, assembleFill_insert st rows cs (j + 1)]

theorem assembleOther_zero (cols : List ColumnModel) : assembleOther 0 cols = cols := by
  unfold assembleOther
  conv_rhs => rw [← List.map_id cols]
  refine List.map_congr_left fun c _ => ?_
  simp

theorem assembleOther_insert (n : Nat) (cols : List ColumnModel) :
    assembleOther n (cols.map ColumnModel.insertDefault) = assembleOther (n + 1) cols := by
  unfold assembleOther
  rw [List.map_map]
  refine List.map_congr_left fun c _ => ?_
  simp [ColumnModel.insertDefault, ColumnModel.insert, List.replicate_succ]

theorem genLoop_spec :
    ∀ (fuel : Nat) (fr : FillingRow) (target : List Field) (f o : List ColumnModel),
      (genLoop fuel fr target f o).2.1 = assembleFill (genRowList fuel fr target) 0 f ∧
      (genLoop fuel fr target f o).2.2.1 =
        assembleOther (genRowList fuel fr target).length o ∧
      (genLoop fuel fr target f o).2.2.2.1 = !(genRowList fuel fr target).isEmpty
  | 0, fr, target, f, o => by
      simp [genLoop, genRowList, assembleFill_nil, assembleOther_zero]
  | fuel + 1, fr, target, f, o => by
      have ih := genLoop_spec fuel (fr.next target).1 target
        (insertFromFillingRow f o (fr.next target).1).1
        (insertFromFillingRow f o (fr.next target).1).2
      simp only [genLoop, genRowList]
      cases hr : (fr.next target).2
      · simp [hr, assembleFill_nil, assembleOther_zero]
      · simp only [hr, if_pos]
        refine ⟨?_, ?_, by simp⟩
        · rw [ih.1]
          show assembleFill _ 0 (insertFillCells (fr.next target).1 0 f) = _
          rw [assembleFill_insert]
        · rw [ih.2.1]
          show assembleOther _ (o.map ColumnModel.insertDefault) = _
          rw [assembleOther_insert]
          simp

/-- C8: when the upstream is exhausted, `readImpl` sets `next_row` to each
column's `fill_to`, repeatedly advances the cursor, and returns the
assembled batch containing exactly the synthesized rows when there is at
least one — each fill column holding precisely that row sequence's cells
(nulls emitted as defaults) and each other column one default per row —
and otherwise propagates the empty-stream signal unchanged. -/
theorem c8_end_of_stream_batch (st : StreamState) (fuel : Nat) :
    (readImplNone st fuel).2.1.next_row = endTarget st ∧
    (readImplNone st fuel).1 =
      (if genRowList fuel st.filling_row (endTarget st).row = [] then none
       else some (createResultBlock st.header st.fill_positions st.other_positions
        (assembleFill (genRowList fuel st.filling_row (endTarget st).row) 0
          ((initColumnsByPositions (headerBlock st.header) st.fill_positions).2))
        (assembleOther (genRowList fuel st.filling_row (endTarget st).row).length
          ((initColumnsByPositions (headerBlock st.header) st.other_positions).2)))) := by
  have hs := genLoop_spec fuel st.filling_row (endTarget st).row
    ((initColumnsByPositions (headerBlock st.header) st.fill_positions).2)
    ((initColumnsByPositions (headerBlock st.header) st.other_positions).2)
  constructor
  · simp only [readImplNone]
    split <;> rfl
  · simp only [readImplNone, hs.1, hs.2.1, hs.2.2]
    cases hrows : genRowList fuel st.filling_row (endTarget st).row
    · simp [hrows]
    · simp [hrows]

/-! ### The catch-up branch: return value and cursor update -/

theorem catchUp_true_iff (to_row : List Field) :
    ∀ (k : Nat) (st : FillingRow) (i : Nat),
      ((catchUp to_row k st i).2 = true ↔
        ∃ j, i ≤ j ∧ j < i + k ∧ catchCond st.description to_row j)
  | 0, st, i => by
      simp only [catchUp]
      constructor
      · intro h
        exact absurd h (by simp)
      · rintro ⟨j, h1, h2, _⟩
        omega
  | k + 1, st, i => by
      simp only [catchUp]
      split
      case isTrue h =>
        simp only [true_iff]
        exact ⟨i, Nat.le_refl i, by omega, h⟩
      case isFalse h =>
        rw [catchUp_true_iff to_row k _ (i + 1)]
        constructor
        · rintro ⟨j, hj1, hj2, hc⟩
          exact ⟨j, by omega, by omega, hc⟩
        · rintro ⟨j, hj1, hj2, hc⟩
          rcases Nat.eq_or_lt_of_le hj1 with rfl | hj1'
          · exact absurd hc h
          · exact ⟨j, by omega, by omega, hc⟩

theorem catchUp_row_length (to_row : List Field) :
    ∀ (k : Nat) (st : FillingRow) (i : Nat),
      (catchUp to_row k st i).1.row.length = st.row.length
  | 0, _, _ => rfl
  | k + 1, st, i => by
      simp only [catchUp]
      split
      · simp [FillingRow.initFromDefaults, List.length_mapIdx]
      · rw [catchUp_row_length to_row k _ (i + 1)]
        simp

/-- C3 (amended): in the catch-up case — first disagreement at `pos`,
target not behind the cursor, no trailing column fires, and the stepped
value equals `target[pos]` exactly — `next` sets column `pos` to the
stepped value, but returns true if and only if some LATER column's
non-null `fill_from` lies strictly before the (non-null) target value at
that column; with no such column (in particular for a single fill column)
it returns false. -/
theorem c3_catch_up_return (st : FillingRow) (target : List Field) (pos : Nat)
    (hpos : findPosList st.row target = pos)
    (hlt : pos < st.size)
    (hnb : less (target.getD pos Field.null) (st.get pos) (st.getDirection pos) = false)
    (htr : trailingScan st pos (st.size - 1) = none)
    (heq : equalsF (fieldSum (st.getFillDescription pos).fill_step (st.get pos))
      (target.getD pos Field.null) = true) :
    (st.next target).1.row.getD pos Field.null
        = fieldSum (st.getFillDescription pos).fill_step (st.get pos) ∧
    ((st.next target).2 = true ↔
      ∃ j, pos < j ∧ j < st.size ∧ catchCond st.description target j) := by
  have hne : ¬ (pos = st.size) := Nat.ne_of_lt hlt
  have hnext : st.next target =
      ({ (catchUp target (st.size - (pos + 1)) st (pos + 1)).1 with
          row := (catchUp target (st.size - (pos + 1)) st (pos + 1)).1.row.set pos
            (fieldSum (st.getFillDescription pos).fill_step (st.get pos)) },
        (catchUp target (st.size - (pos + 1)) st (pos + 1)).2) := by
    simp only [FillingRow.next, hpos, htr, heq, hnb]
    rw [if_neg hne]
    simp
  constructor
  · rw [hnext]
    have hlen : pos < (catchUp target (st.size - (pos + 1)) st (pos + 1)).1.row.length := by
      rw [catchUp_row_length]
      exact hlt
    rw [List.getD_eq_getElem _ _ (by simpa using hlen)]
    exact List.getElem_set_self _
  · rw [hnext]
    rw [catchUp_true_iff target (st.size - (pos + 1)) st (pos + 1)]
    have harith : pos + 1 + (st.size - (pos + 1)) = st.size := by omega
    rw [harith]
    exact exists_congr fun j =>
      ⟨fun ⟨a, b, c⟩ => ⟨by omega, b, c⟩, fun ⟨a, b, c⟩ => ⟨by omega, b, c⟩⟩

/-- C3 witness for the amended theorem: two columns, the second with
`fill_from = 0` strictly before the target value 3, so the catch-up case
returns true and writes the stepped value 2 at position 0. -/
theorem c3_catch_up_return_witness :
    findPosList c3wSt.row c3wTarget = 0 ∧
    0 < c3wSt.size ∧
    less (c3wTarget.getD 0 Field.null) (c3wSt.get 0) (c3wSt.getDirection 0) = false ∧
    trailingScan c3wSt 0 (c3wSt.size - 1) = none ∧
    equalsF (fieldSum (c3wSt.getFillDescription 0).fill_step (c3wSt.get 0))
      (c3wTarget.getD 0 Field.null) = true ∧
    ((c3wSt.next c3wTarget).1.row.getD 0 Field.null
        = fieldSum (c3wSt.getFillDescription 0).fill_step (c3wSt.get 0) ∧
      ((c3wSt.next c3wTarget).2 = true ↔
        ∃ j, 0 < j ∧ j < c3wSt.size ∧ catchCond c3wSt.description c3wTarget j)) :=
  ⟨by decide, by decide, by decide, by decide, by decide,
    c3_catch_up_return c3wSt c3wTarget 0 (by decide) (by decide) (by decide) (by decide)
      (by decide)⟩

end Filling
